import Mathlib

/-!
Verification of the task tracker core: the Task entity, its validating
property setters, and the repository operations (save, get, get_all,
update_details, update_status, delete), shallowly embedded from the
Python source (models/task.py and the input helpers of utils.py).

The relational store is modelled as the list of persisted rows, in insert
order.  The cursor/connection pair is modelled by an explicit log of the
statements issued during one repository call.  A query that can fail at the
store layer takes an `Except` input: the error side is the exception that
the Python try/except catches.
-/

namespace TaskMM

/-- A task record: the seven fields held by the Python Task object and by a
row of the tasks table, in column order. -/
structure Task where
  id : String
  title : String
  description : String
  due_date : String
  priority : String
  status : String
  created_at : String
deriving DecidableEq, Repr

/-- Task.__init__: assigns the seven arguments directly to the private
attributes; it does not go through the validating property setters. -/
def Task.init (id title description due_date priority status created_at : String) : Task :=
  { id := id, title := title, description := description, due_date := due_date,
    priority := priority, status := status, created_at := created_at }

/-- Python truthiness of value.strip(): the string has a character that is
not whitespace, i.e. it is non-empty after trimming. -/
def nonBlank (s : String) : Bool :=
  s.data.any (fun c => !c.isWhitespace)

/-- The valid_priorities list of the priority setter. -/
def validPriorities : List String := ["Low", "Medium", "High"]

/-- The valid_statuses list of the status setter. -/
def validStatuses : List String := ["Pending", "In Progress", "Completed"]

/-- The title property setter: rejects strings that are empty after
stripping. -/
def setTitle (t : Task) (v : String) : Except String Task :=
  if nonBlank v then .ok { t with title := v }
  else .error "Title must be a non-empty string"

/-- The description property setter. -/
def setDescription (t : Task) (v : String) : Except String Task :=
  if nonBlank v then .ok { t with description := v }
  else .error "Description must be a non-empty string"

/-- The due_date property setter. -/
def setDueDate (t : Task) (v : String) : Except String Task :=
  if nonBlank v then .ok { t with due_date := v }
  else .error "Due date must be a non-empty string"

/-- The priority property setter: rejects values outside valid_priorities,
with a message listing the allowed values. -/
def setPriority (t : Task) (v : String) : Except String Task :=
  if v ∈ validPriorities then .ok { t with priority := v }
  else .error "Priority must be one of: Low, Medium, High"

/-- The status property setter: rejects values outside valid_statuses, with
a message listing the allowed values. -/
def setStatus (t : Task) (v : String) : Except String Task :=
  if v ∈ validStatuses then .ok { t with status := v }
  else .error "Status must be one of: Pending, In Progress, Completed"

/-- The SQL statements the repository issues through the cursor.  The
priority column is named priority_level in storage. -/
inductive Stmt where
  | insertTask (r : Task)
  | updateTitle (v id : String)
  | updateDescription (v id : String)
  | updateDueDate (v id : String)
  | updatePriorityLevel (v id : String)
  | updateStatusCol (v id : String)
  | deleteById (id : String)
  | commit
deriving DecidableEq, Repr

/-- Effect of one statement on the stored rows. -/
def applyStmt (db : List Task) : Stmt → List Task
  | .insertTask r => db ++ [r]
  | .updateTitle v i => db.map fun r => if r.id = i then { r with title := v } else r
  | .updateDescription v i => db.map fun r => if r.id = i then { r with description := v } else r
  | .updateDueDate v i => db.map fun r => if r.id = i then { r with due_date := v } else r
  | .updatePriorityLevel v i => db.map fun r => if r.id = i then { r with priority := v } else r
  | .updateStatusCol v i => db.map fun r => if r.id = i then { r with status := v } else r
  | .deleteById i => db.filter fun r => r.id != i
  | .commit => db

/-- The WHERE id LIKE pattern of Task.get: the row id starts with the given
string. -/
def likeMatch (p s : String) : Bool := p.data.isPrefixOf s.data

/-- Task.get: SELECT with LIKE on a leading fragment of the id, fetchone
(the first matching row in store order), rebuild a Task from the row; on a
store error the except branch returns None. -/
def Task.get (store : Except String (List Task)) (task_id : String) : Option Task :=
  match store with
  | .error _ => none
  | .ok rows =>
    match rows.find? (fun r => likeMatch task_id r.id) with
    | some r =>
      some (Task.init r.id r.title r.description r.due_date r.priority r.status r.created_at)
    | none => none

/-- The CASE rank of the priority ORDER BY: High 1, Medium 2, Low 3,
anything else 4. -/
def priorityRank (p : String) : Nat :=
  if p = "High" then 1 else if p = "Medium" then 2 else if p = "Low" then 3 else 4

/-- The CASE rank of the status ORDER BY: Pending 1, In Progress 2,
Completed 3, anything else 4. -/
def statusRank (s : String) : Nat :=
  if s = "Pending" then 1 else if s = "In Progress" then 2 else if s = "Completed" then 3 else 4

/-- Row order of ORDER BY due_date ASC: lexical on the stored string. -/
def dueDateLE (a b : Task) : Prop := a.due_date ≤ b.due_date

/-- Row order of the priority ORDER BY. -/
def priorityLE (a b : Task) : Prop := priorityRank a.priority ≤ priorityRank b.priority

/-- Row order of the status ORDER BY. -/
def statusLE (a b : Task) : Prop := statusRank a.status ≤ statusRank b.status

instance : DecidableRel dueDateLE :=
  fun a b => inferInstanceAs (Decidable (a.due_date ≤ b.due_date))

instance : DecidableRel priorityLE :=
  fun a b => inferInstanceAs (Decidable (priorityRank a.priority ≤ priorityRank b.priority))

instance : DecidableRel statusLE :=
  fun a b => inferInstanceAs (Decidable (statusRank a.status ≤ statusRank b.status))

instance : IsTotal Task dueDateLE := ⟨fun a b => le_total a.due_date b.due_date⟩

instance : IsTrans Task dueDateLE := ⟨fun _ _ _ => le_trans⟩

instance : IsTotal Task priorityLE :=
  ⟨fun a b => Nat.le_total (priorityRank a.priority) (priorityRank b.priority)⟩

instance : IsTrans Task priorityLE := ⟨fun _ _ _ => Nat.le_trans⟩

instance : IsTotal Task statusLE :=
  ⟨fun a b => Nat.le_total (statusRank a.status) (statusRank b.status)⟩

instance : IsTrans Task statusLE := ⟨fun _ _ _ => Nat.le_trans⟩

/-- Task.get_all: SELECT all rows with the chosen ORDER BY; ties keep store
order (a stable sort); on a store error the except branch returns the empty
list. -/
def Task.get_all (store : Except String (List Task)) (sort_by : Option String) : List Task :=
  match store with
  | .error _ => []
  | .ok rows =>
    if sort_by = some "due_date" then List.insertionSort dueDateLE rows
    else if sort_by = some "priority" then List.insertionSort priorityLE rows
    else if sort_by = some "status" then List.insertionSort statusLE rows
    else rows

/-- Task.save: INSERT of all seven fields as one row, then commit.  Returns
the success flag, the new rows, and the statements issued. -/
def Task.save (t : Task) (db : List Task) : Bool × List Task × List Stmt :=
  (true, applyStmt db (.insertTask t), [.insertTask t, .commit])

/-- State threaded through an update call: the in-memory task, the stored
rows, and the statements issued so far in this call. -/
structure UpdState where
  task : Task
  db : List Task
  log : List Stmt
deriving DecidableEq, Repr

/-- One optional-field block of Task.update_details: if the field was
supplied, run the validating setter (which may raise) and then execute the
UPDATE statement; an error carries the state at the moment of the raise. -/
def updOne (set : Task → String → Except String Task) (stmt : String → String → Stmt)
    (v? : Option String) (s : UpdState) : Except UpdState UpdState :=
  match v? with
  | none => .ok s
  | some v =>
    match set s.task v with
    | .error _ => .error s
    | .ok t => .ok ⟨t, applyStmt s.db (stmt v t.id), s.log ++ [stmt v t.id]⟩

/-- Task.update_details: handle title, description, due date and priority in
that order, one UPDATE per supplied field, then one commit; the except
branch returns False and keeps the mutations already made. -/
def Task.update_details (t : Task) (db : List Task)
    (title description due_date priority : Option String) : Bool × UpdState :=
  match updOne setTitle Stmt.updateTitle title ⟨t, db, []⟩ with
  | .error s => (false, s)
  | .ok s1 =>
    match updOne setDescription Stmt.updateDescription description s1 with
    | .error s => (false, s)
    | .ok s2 =>
      match updOne setDueDate Stmt.updateDueDate due_date s2 with
      | .error s => (false, s)
      | .ok s3 =>
        match updOne setPriority Stmt.updatePriorityLevel priority s3 with
        | .error s => (false, s)
        | .ok s4 => (true, ⟨s4.task, s4.db, s4.log ++ [Stmt.commit]⟩)

/-- Task.update_status: assign through the validating status setter, then
UPDATE the status column and commit; a raise in the setter is caught before
any statement is executed and the call returns False. -/
def Task.update_status (t : Task) (db : List Task) (status : String) : Bool × UpdState :=
  match setStatus t status with
  | .error _ => (false, ⟨t, db, []⟩)
  | .ok t1 => (true, ⟨t1, applyStmt db (.updateStatusCol status t.id),
      [.updateStatusCol status t.id, .commit]⟩)

/-- Task.delete: DELETE the row by id, then commit. -/
def Task.delete (t : Task) (db : List Task) : Bool × List Task × List Stmt :=
  (true, applyStmt db (.deleteById t.id), [.deleteById t.id, .commit])

/-- A task whose fields satisfy the construction contract of the spec:
non-blank title, description and due date, and priority and status drawn
from the closed enumerations. -/
def ValidTask (t : Task) : Prop :=
  nonBlank t.title = true ∧ nonBlank t.description = true ∧ nonBlank t.due_date = true ∧
    t.priority ∈ validPriorities ∧ t.status ∈ validStatuses

instance : DecidablePred ValidTask := fun t => by unfold ValidTask; infer_instance

/-- enter_month of utils.py: the input loop accepts exactly the strings 1
through 12, as typed, with no zero padding. -/
def monthAccepted (u : String) : Bool :=
  decide (u ∈ ["1", "2", "3", "4", "5", "6", "7", "8", "9", "10", "11", "12"])

/-- The days_in_month table of enter_day (non-leap year). -/
def daysInMonth (m : String) : Nat :=
  if m = "1" then 31 else if m = "2" then 28 else if m = "3" then 31
  else if m = "4" then 30 else if m = "5" then 31 else if m = "6" then 30
  else if m = "7" then 31 else if m = "8" then 31 else if m = "9" then 30
  else if m = "10" then 31 else if m = "11" then 30 else 31

/-- Parsing of a plain decimal numeral, the shape of input the day and year
prompts accept (a structural model of int() on unsigned numerals). -/
def plainNat? (s : String) : Option Nat :=
  if s.data ≠ [] ∧ s.data.all Char.isDigit then
    some (s.data.foldl (fun n c => 10 * n + (c.toNat - 48)) 0)
  else none

/-- enter_day of utils.py: accepts a numeral u with 1 <= int(u) <= the day
count of the month, returned as typed, with no zero padding. -/
def dayAccepted (m u : String) : Bool :=
  match plainNat? u with
  | some n => decide (1 ≤ n ∧ n ≤ daysInMonth m)
  | none => false

/-- enter_year of utils.py: accepts a numeral with int(year) >= 2026. -/
def yearAccepted (u : String) : Bool :=
  match plainNat? u with
  | some n => decide (2026 ≤ n)
  | none => false

/-- add_task of utils.py builds the due date by plain interpolation of the
entered strings: year, dash, month, dash, day, with no zero padding. -/
def formatDueDate (year month day : String) : String :=
  year ++ "-" ++ month ++ "-" ++ day

/-- Zero-padded YYYY-MM-DD shape: four digits, dash, two digits, dash, two
digits. -/
def isZeroPaddedYMD (s : String) : Bool :=
  match s.data with
  | [y1, y2, y3, y4, h1, m1, m2, h2, d1, d2] =>
    y1.isDigit && y2.isDigit && y3.isDigit && y4.isDigit && (h1 == '-') &&
      m1.isDigit && m2.isDigit && (h2 == '-') && d1.isDigit && d2.isDigit
  | _ => false

/-- Modelled from the spec construction contract: a constructor that checks
every field before creating the record, rejecting a bad field with an error
naming it and the allowed values. -/
def initChecked (id title description due_date priority status created_at : String) :
    Except String Task :=
  if !(nonBlank title) then .error "Title must be a non-empty string"
  else if !(nonBlank description) then .error "Description must be a non-empty string"
  else if !(nonBlank due_date) then .error "Due date must be a non-empty string"
  else if priority ∉ validPriorities then .error "Priority must be one of: Low, Medium, High"
  else if status ∉ validStatuses then
    .error "Status must be one of: Pending, In Progress, Completed"
  else .ok (Task.init id title description due_date priority status created_at)

/-! ## Helper lemmas -/

/-- The state an update step ends in, whether the step returned normally or
raised. -/
def stOf : Except UpdState UpdState → UpdState
  | .ok s => s
  | .error s => s

theorem updOne_error_eq {set stmt v? s s1}
    (h : updOne set stmt v? s = .error s1) : s1 = s := by
  cases v? with
  | none => simp [updOne] at h
  | some v =>
    cases hs : set s.task v with
    | error e => simp [updOne, hs] at h; exact h.symm
    | ok t1 => simp [updOne, hs] at h

/-- A record-field rewrite that does not touch the projection f leaves the
f column of every row unchanged. -/
theorem map_ite_proj (f : Task → String) (g : Task → Task) (i : String)
    (hg : ∀ r, f (g r) = f r) (db : List Task) :
    (db.map fun r => if r.id = i then g r else r).map f = db.map f := by
  induction db with
  | nil => rfl
  | cons a l ih =>
    simp only [List.map_cons, ih, List.cons.injEq, and_true]
    split
    · exact hg a
    · rfl

/-- Hypotheses under which one update step cannot change the projection f:
either the field was not supplied, or neither its setter nor its UPDATE
statement touches f. -/
def StepKeeps (f : Task → String) (set : Task → String → Except String Task)
    (stmt : String → String → Stmt) (v? : Option String) : Prop :=
  v? = none ∨ ((∀ t v t1, set t v = .ok t1 → f t1 = f t) ∧
    (∀ dbl v i, (applyStmt dbl (stmt v i)).map f = dbl.map f))

theorem updOne_proj (f : Task → String) {set stmt v?} (s : UpdState)
    (h : StepKeeps f set stmt v?) :
    f (stOf (updOne set stmt v? s)).task = f s.task ∧
      (stOf (updOne set stmt v? s)).db.map f = s.db.map f := by
  cases v? with
  | none => simp [updOne, stOf]
  | some v =>
    rcases h with h | ⟨hset, hstmt⟩
    · exact absurd h (by simp)
    cases hs : set s.task v with
    | error e => simp [updOne, hs, stOf]
    | ok t1 => simp [updOne, hs, stOf, hset _ _ _ hs, hstmt]

theorem updOne_ok_log {set stmt v? s s1} (h : updOne set stmt v? s = .ok s1)
    (hne : ∀ v i, stmt v i ≠ Stmt.commit) :
    s1.log.length = s.log.length + v?.toList.length ∧
      s1.log.count Stmt.commit = s.log.count Stmt.commit := by
  cases v? with
  | none =>
    simp only [updOne, Except.ok.injEq] at h
    subst h; simp
  | some v =>
    cases hs : set s.task v with
    | error e => simp [updOne, hs] at h
    | ok t1 =>
      simp only [updOne, hs, Except.ok.injEq] at h
      subst h
      refine ⟨by simp, ?_⟩
      simp [List.count_append, List.count_cons, List.count_nil, hne v t1.id]

theorem setTitle_ok {t v t1} (h : setTitle t v = .ok t1) :
    nonBlank v = true ∧ t1 = { t with title := v } := by
  unfold setTitle at h
  split at h
  · exact ⟨by assumption, by injection h with h2; exact h2.symm⟩
  · exact absurd h (by simp)

theorem setDescription_ok {t v t1} (h : setDescription t v = .ok t1) :
    nonBlank v = true ∧ t1 = { t with description := v } := by
  unfold setDescription at h
  split at h
  · exact ⟨by assumption, by injection h with h2; exact h2.symm⟩
  · exact absurd h (by simp)

theorem setDueDate_ok {t v t1} (h : setDueDate t v = .ok t1) :
    nonBlank v = true ∧ t1 = { t with due_date := v } := by
  unfold setDueDate at h
  split at h
  · exact ⟨by assumption, by injection h with h2; exact h2.symm⟩
  · exact absurd h (by simp)

theorem setPriority_ok {t v t1} (h : setPriority t v = .ok t1) :
    v ∈ validPriorities ∧ t1 = { t with priority := v } := by
  unfold setPriority at h
  split at h
  · exact ⟨by assumption, by injection h with h2; exact h2.symm⟩
  · exact absurd h (by simp)

theorem setStatus_ok {t v t1} (h : setStatus t v = .ok t1) :
    v ∈ validStatuses ∧ t1 = { t with status := v } := by
  unfold setStatus at h
  split at h
  · exact ⟨by assumption, by injection h with h2; exact h2.symm⟩
  · exact absurd h (by simp)

/-- Chained projection preservation over the four steps of
Task.update_details, covering the normal and the raising runs alike. -/
theorem update_details_proj (f : Task → String) (t : Task) (db : List Task)
    (a b c d : Option String)
    (h1 : StepKeeps f setTitle Stmt.updateTitle a)
    (h2 : StepKeeps f setDescription Stmt.updateDescription b)
    (h3 : StepKeeps f setDueDate Stmt.updateDueDate c)
    (h4 : StepKeeps f setPriority Stmt.updatePriorityLevel d) :
    f (Task.update_details t db a b c d).2.task = f t ∧
      (Task.update_details t db a b c d).2.db.map f = db.map f := by
  unfold Task.update_details
  have p1 := updOne_proj f ⟨t, db, []⟩ h1
  cases e1 : updOne setTitle Stmt.updateTitle a ⟨t, db, []⟩ with
  | error s => dsimp only; rw [e1] at p1; exact p1
  | ok s1 =>
    dsimp only
    rw [e1] at p1
    have p2 := updOne_proj f s1 h2
    cases e2 : updOne setDescription Stmt.updateDescription b s1 with
    | error s =>
      dsimp only
      rw [e2] at p2
      exact ⟨p2.1.trans p1.1, p2.2.trans p1.2⟩
    | ok s2 =>
      dsimp only
      rw [e2] at p2
      have p3 := updOne_proj f s2 h3
      cases e3 : updOne setDueDate Stmt.updateDueDate c s2 with
      | error s =>
        dsimp only
        rw [e3] at p3
        exact ⟨(p3.1.trans p2.1).trans p1.1, (p3.2.trans p2.2).trans p1.2⟩
      | ok s3 =>
        dsimp only
        rw [e3] at p3
        have p4 := updOne_proj f s3 h4
        cases e4 : updOne setPriority Stmt.updatePriorityLevel d s3 with
        | error s =>
          dsimp only
          rw [e4] at p4
          exact ⟨((p4.1.trans p3.1).trans p2.1).trans p1.1,
            ((p4.2.trans p3.2).trans p2.2).trans p1.2⟩
        | ok s4 =>
          dsimp only
          rw [e4] at p4
          exact ⟨((p4.1.trans p3.1).trans p2.1).trans p1.1,
            ((p4.2.trans p3.2).trans p2.2).trans p1.2⟩

/-- On a normal run, the statements issued by Task.update_details are one
UPDATE per supplied field followed by exactly one COMMIT, at the end. -/
theorem update_details_log (t : Task) (db : List Task) (a b c d : Option String)
    (s : UpdState) (h : Task.update_details t db a b c d = (true, s)) :
    s.log.length =
        a.toList.length + b.toList.length + c.toList.length + d.toList.length + 1 ∧
      s.log.count Stmt.commit = 1 ∧ s.log.getLast? = some Stmt.commit := by
  unfold Task.update_details at h
  cases e1 : updOne setTitle Stmt.updateTitle a ⟨t, db, []⟩ with
  | error s0 => rw [e1] at h; simp at h
  | ok s1 =>
    rw [e1] at h
    dsimp only at h
    have l1 := updOne_ok_log e1 (by intro v i; simp)
    cases e2 : updOne setDescription Stmt.updateDescription b s1 with
    | error s0 => rw [e2] at h; simp at h
    | ok s2 =>
      rw [e2] at h
      dsimp only at h
      have l2 := updOne_ok_log e2 (by intro v i; simp)
      cases e3 : updOne setDueDate Stmt.updateDueDate c s2 with
      | error s0 => rw [e3] at h; simp at h
      | ok s3 =>
        rw [e3] at h
        dsimp only at h
        have l3 := updOne_ok_log e3 (by intro v i; simp)
        cases e4 : updOne setPriority Stmt.updatePriorityLevel d s3 with
        | error s0 => rw [e4] at h; simp at h
        | ok s4 =>
          rw [e4] at h
          dsimp only at h
          have l4 := updOne_ok_log e4 (by intro v i; simp)
          simp only [Prod.mk.injEq, true_and] at h
          subst h
          refine ⟨?_, ?_, List.getLast?_concat _⟩
          · simp only [List.length_append, List.length_cons, List.length_nil,
              l4.1, l3.1, l2.1, l1.1]
            omega
          · simp [List.count_append, l4.2, l3.2, l2.2, l1.2]

theorem stepKeeps_title (f : Task → String)
    (hf : ∀ r v, f { r with title := v } = f r) (v? : Option String) :
    StepKeeps f setTitle Stmt.updateTitle v? :=
  Or.inr ⟨fun t1 v t2 h2 => by rw [(setTitle_ok h2).2]; exact hf t1 v,
    fun dbl v i => map_ite_proj f _ i (fun r => hf r v) dbl⟩

theorem stepKeeps_desc (f : Task → String)
    (hf : ∀ r v, f { r with description := v } = f r) (v? : Option String) :
    StepKeeps f setDescription Stmt.updateDescription v? :=
  Or.inr ⟨fun t1 v t2 h2 => by rw [(setDescription_ok h2).2]; exact hf t1 v,
    fun dbl v i => map_ite_proj f _ i (fun r => hf r v) dbl⟩

theorem stepKeeps_dd (f : Task → String)
    (hf : ∀ r v, f { r with due_date := v } = f r) (v? : Option String) :
    StepKeeps f setDueDate Stmt.updateDueDate v? :=
  Or.inr ⟨fun t1 v t2 h2 => by rw [(setDueDate_ok h2).2]; exact hf t1 v,
    fun dbl v i => map_ite_proj f _ i (fun r => hf r v) dbl⟩

theorem stepKeeps_pri (f : Task → String)
    (hf : ∀ r v, f { r with priority := v } = f r) (v? : Option String) :
    StepKeeps f setPriority Stmt.updatePriorityLevel v? :=
  Or.inr ⟨fun t1 v t2 h2 => by rw [(setPriority_ok h2).2]; exact hf t1 v,
    fun dbl v i => map_ite_proj f _ i (fun r => hf r v) dbl⟩

/-- The status UPDATE leaves every other column of every row unchanged. -/
theorem statusCol_keeps (f : Task → String)
    (hf : ∀ r v, f { r with status := v } = f r) (db : List Task) (v i : String) :
    (applyStmt db (.updateStatusCol v i)).map f = db.map f :=
  map_ite_proj f _ i (fun r => hf r v) db

/-! ## Concrete fixtures used by the witnesses and scenarios -/

/-- A valid stored task used by the witnesses. -/
def t0 : Task :=
  ⟨"aaaa-bbbb", "T", "D", "2026-01-02", "Low", "Pending", "2026-01-01 00:00:00"⟩

/-- Scenario task A: priority Low, status Pending. -/
def taskA : Task := ⟨"aaaa-1111", "A", "DA", "2026-01-02", "Low", "Pending", "c"⟩

/-- Scenario task B: priority High, status Pending. -/
def taskB : Task := ⟨"bbbb-2222", "B", "DB", "2026-01-03", "High", "Pending", "c"⟩

/-! ## Claims -/

/-- Claim C1, counterexample: constructing a Task with priority Urgent does
not raise; the source constructor returns a record that stores Urgent, a
value outside the closed priority enumeration, while the construction
contract written in the spec (initChecked) rejects it with the error naming
the allowed values. -/
theorem claim1_counterexample :
    (Task.init "11111111-2222" "T" "D" "2026-01-02" "Urgent" "Pending" "ts").priority
        = "Urgent" ∧
      "Urgent" ∉ validPriorities ∧
      initChecked "11111111-2222" "T" "D" "2026-01-02" "Urgent" "Pending" "ts" =
        .error "Priority must be one of: Low, Medium, High" :=
  ⟨rfl, by decide, rfl⟩

/-- Claim C1, amended: the constructor itself performs no validation: it
assigns all seven arguments directly, so any value, including priority
Urgent, is stored in the record.  The validation the claim describes lives
in the property setters: the priority setter accepts exactly Low, Medium,
High and the status setter exactly Pending, In Progress, Completed, and a
rejected value raises an error naming the field and the allowed values. -/
theorem claim1_amended :
    (∀ i ti de dd p st c, Task.init i ti de dd p st c = ⟨i, ti, de, dd, p, st, c⟩) ∧
      (∀ t v, (∃ t1, setPriority t v = .ok t1) ↔
        (v = "Low" ∨ v = "Medium" ∨ v = "High")) ∧
      (∀ t v, (∃ t1, setStatus t v = .ok t1) ↔
        (v = "Pending" ∨ v = "In Progress" ∨ v = "Completed")) ∧
      (∀ t, setPriority t "Urgent" = .error "Priority must be one of: Low, Medium, High") := by
  refine ⟨fun _ _ _ _ _ _ _ => rfl, ?_, ?_, fun t => rfl⟩
  · intro t v
    constructor
    · rintro ⟨t1, h⟩
      simpa [validPriorities] using (setPriority_ok h).1
    · intro h
      have hv : v ∈ validPriorities := by simp [validPriorities]; tauto
      exact ⟨{ t with priority := v }, by simp [setPriority, hv]⟩
  · intro t v
    constructor
    · rintro ⟨t1, h⟩
      simpa [validStatuses] using (setStatus_ok h).1
    · intro h
      have hv : v ∈ validStatuses := by simp [validStatuses]; tauto
      exact ⟨{ t with status := v }, by simp [setStatus, hv]⟩

/-- Claim C2: list_all with sort key priority returns the rows ordered by
the rank High 1, Medium 2, Low 3, other 4 (so every High row precedes every
Medium row, which precedes every Low row), and with sort key status ordered
by the rank Pending 1, In Progress 2, Completed 3, other 4; both outputs
are rearrangements of the stored rows.  In particular, after storing task A
(Low) then task B (High), list_all priority returns B then A. -/
theorem claim2_sorted :
    (∀ db : List Task,
      List.Sorted priorityLE (Task.get_all (.ok db) (some "priority")) ∧
        (Task.get_all (.ok db) (some "priority")).Perm db) ∧
      (∀ db : List Task,
        List.Sorted statusLE (Task.get_all (.ok db) (some "status")) ∧
          (Task.get_all (.ok db) (some "status")).Perm db) ∧
      Task.get_all (.ok [taskA, taskB]) (some "priority") = [taskB, taskA] := by
  refine ⟨fun db => ?_, fun db => ?_, by decide⟩
  · have hg : Task.get_all (.ok db) (some "priority") = List.insertionSort priorityLE db := by
      simp [Task.get_all]
    rw [hg]
    exact ⟨List.sorted_insertionSort priorityLE db, List.perm_insertionSort priorityLE db⟩
  · have hg : Task.get_all (.ok db) (some "status") = List.insertionSort statusLE db := by
      simp [Task.get_all]
    rw [hg]
    exact ⟨List.sorted_insertionSort statusLE db, List.perm_insertionSort statusLE db⟩

/-- Claim C3: for a validly constructed task whose id no stored row id
starts with, save succeeds and a lookup by the full id returns a record
equal to the original in all seven fields. -/
theorem claim3_roundtrip (t : Task) (db : List Task) (hv : ValidTask t)
    (hfresh : ∀ r ∈ db, likeMatch t.id r.id = false) :
    (Task.save t db).1 = true ∧ Task.get (.ok (Task.save t db).2.1) t.id = some t := by
  refine ⟨rfl, ?_⟩
  have hnone : db.find? (fun r => likeMatch t.id r.id) = none := by
    rw [List.find?_eq_none]
    intro x hx
    simp [hfresh x hx]
  have hself : likeMatch t.id t.id = true := by
    simp [likeMatch]
  have hfind : ((Task.save t db).2.1).find? (fun r => likeMatch t.id r.id) = some t := by
    show ((db ++ [t]).find? fun r => likeMatch t.id r.id) = some t
    rw [List.find?_append, hnone, Option.none_or]
    exact List.find?_cons_of_pos [] hself
  simp only [Task.get, hfind]
  rfl

/-- Witness for C3: on an empty store, saving the fixture task and fetching
it by its full id returns it unchanged. -/
theorem claim3_witness :
    (Task.save t0 []).1 = true ∧ Task.get (.ok (Task.save t0 []).2.1) t0.id = some t0 :=
  claim3_roundtrip t0 [] (by decide) (by intro r hr; simp at hr)

/-- Claim C4: update_status with a value outside the closed status
enumeration fails in the setter before any statement is executed: the call
returns False, the statement log of the call is empty, and both the
in-memory task and the stored rows are exactly as before. -/
theorem claim4_invalid_status (t : Task) (db : List Task) (v : String)
    (hv : v ∉ validStatuses) :
    Task.update_status t db v = (false, ⟨t, db, []⟩) := by
  unfold Task.update_status setStatus
  rw [if_neg hv]

/-- Witness for C4: updating the fixture task to the status Urgent fails
and changes nothing. -/
theorem claim4_witness :
    Task.update_status t0 [t0] "Urgent" = (false, ⟨t0, [t0], []⟩) :=
  claim4_invalid_status t0 [t0] "Urgent" (by decide)

/-- Claim C5: frame property of the updates.  On a successful
update_details call, every unsupplied field is unchanged on the in-memory
task and in the column of every stored row, the status column is never
touched, id and created_at are unchanged, and the statements issued are one
UPDATE per supplied field plus exactly one COMMIT, last.  On a successful
update_status call, only the status changes: the in-memory task is the old
task with the new status, every other column of every stored row is
unchanged, and the call issues one status UPDATE and one COMMIT. -/
theorem claim5_frame :
    (∀ t db a b c d s, Task.update_details t db a b c d = (true, s) →
      (a = none → s.task.title = t.title ∧ s.db.map Task.title = db.map Task.title) ∧
        (b = none → s.task.description = t.description ∧
          s.db.map Task.description = db.map Task.description) ∧
        (c = none → s.task.due_date = t.due_date ∧
          s.db.map Task.due_date = db.map Task.due_date) ∧
        (d = none → s.task.priority = t.priority ∧
          s.db.map Task.priority = db.map Task.priority) ∧
        (s.task.status = t.status ∧ s.db.map Task.status = db.map Task.status) ∧
        (s.task.id = t.id ∧ s.task.created_at = t.created_at) ∧
        (s.log.length = a.toList.length + b.toList.length + c.toList.length +
            d.toList.length + 1 ∧
          s.log.count Stmt.commit = 1 ∧ s.log.getLast? = some Stmt.commit)) ∧
      (∀ t db v s, Task.update_status t db v = (true, s) →
        s.task = { t with status := v } ∧
          s.db.map Task.title = db.map Task.title ∧
          s.db.map Task.description = db.map Task.description ∧
          s.db.map Task.due_date = db.map Task.due_date ∧
          s.db.map Task.priority = db.map Task.priority ∧
          s.db.map Task.id = db.map Task.id ∧
          s.db.map Task.created_at = db.map Task.created_at ∧
          s.log = [Stmt.updateStatusCol v t.id, Stmt.commit]) := by
  constructor
  · intro t db a b c d s h
    have hres : (Task.update_details t db a b c d).2 = s := by rw [h]
    refine ⟨?_, ?_, ?_, ?_, ?_, ?_, update_details_log t db a b c d s h⟩
    · intro ha; subst ha
      have hp := update_details_proj Task.title t db none b c d (Or.inl rfl)
        (stepKeeps_desc Task.title (fun r v => rfl) b)
        (stepKeeps_dd Task.title (fun r v => rfl) c)
        (stepKeeps_pri Task.title (fun r v => rfl) d)
      rw [hres] at hp; exact hp
    · intro hb; subst hb
      have hp := update_details_proj Task.description t db a none c d
        (stepKeeps_title Task.description (fun r v => rfl) a) (Or.inl rfl)
        (stepKeeps_dd Task.description (fun r v => rfl) c)
        (stepKeeps_pri Task.description (fun r v => rfl) d)
      rw [hres] at hp; exact hp
    · intro hc; subst hc
      have hp := update_details_proj Task.due_date t db a b none d
        (stepKeeps_title Task.due_date (fun r v => rfl) a)
        (stepKeeps_desc Task.due_date (fun r v => rfl) b) (Or.inl rfl)
        (stepKeeps_pri Task.due_date (fun r v => rfl) d)
      rw [hres] at hp; exact hp
    · intro hd; subst hd
      have hp := update_details_proj Task.priority t db a b c none
        (stepKeeps_title Task.priority (fun r v => rfl) a)
        (stepKeeps_desc Task.priority (fun r v => rfl) b)
        (stepKeeps_dd Task.priority (fun r v => rfl) c) (Or.inl rfl)
      rw [hres] at hp; exact hp
    · have hp := update_details_proj Task.status t db a b c d
        (stepKeeps_title Task.status (fun r v => rfl) a)
        (stepKeeps_desc Task.status (fun r v => rfl) b)
        (stepKeeps_dd Task.status (fun r v => rfl) c)
        (stepKeeps_pri Task.status (fun r v => rfl) d)
      rw [hres] at hp; exact hp
    · have hid := update_details_proj Task.id t db a b c d
        (stepKeeps_title Task.id (fun r v => rfl) a)
        (stepKeeps_desc Task.id (fun r v => rfl) b)
        (stepKeeps_dd Task.id (fun r v => rfl) c)
        (stepKeeps_pri Task.id (fun r v => rfl) d)
      have hca := update_details_proj Task.created_at t db a b c d
        (stepKeeps_title Task.created_at (fun r v => rfl) a)
        (stepKeeps_desc Task.created_at (fun r v => rfl) b)
        (stepKeeps_dd Task.created_at (fun r v => rfl) c)
        (stepKeeps_pri Task.created_at (fun r v => rfl) d)
      rw [hres] at hid hca
      exact ⟨hid.1, hca.1⟩
  · intro t db v s h
    unfold Task.update_status at h
    cases hs : setStatus t v with
    | error e => rw [hs] at h; simp at h
    | ok t1 =>
      rw [hs] at h
      dsimp only at h
      simp only [Prod.mk.injEq, true_and] at h
      subst h
      obtain ⟨hv, ht1⟩ := setStatus_ok hs
      subst ht1
      refine ⟨rfl, statusCol_keeps Task.title (fun r v2 => rfl) db v t.id,
        statusCol_keeps Task.description (fun r v2 => rfl) db v t.id,
        statusCol_keeps Task.due_date (fun r v2 => rfl) db v t.id,
        statusCol_keeps Task.priority (fun r v2 => rfl) db v t.id,
        statusCol_keeps Task.id (fun r v2 => rfl) db v t.id,
        statusCol_keeps Task.created_at (fun r v2 => rfl) db v t.id, rfl⟩

/-- The state a title-only update of the fixture task ends in. -/
def sX : UpdState :=
  ⟨{ t0 with title := "X" }, [{ t0 with title := "X" }],
    [Stmt.updateTitle "X" "aaaa-bbbb", Stmt.commit]⟩

/-- The state a Completed status update of the fixture task ends in. -/
def sC : UpdState :=
  ⟨{ t0 with status := "Completed" }, [{ t0 with status := "Completed" }],
    [Stmt.updateStatusCol "Completed" "aaaa-bbbb", Stmt.commit]⟩

/-- Witness for C5: a title-only update of the fixture task leaves its
description unchanged, and a Completed status update rewrites only the
status field. -/
theorem claim5_witness :
    sX.task.description = t0.description ∧ sC.task = { t0 with status := "Completed" } :=
  ⟨((claim5_frame.1 t0 [t0] (some "X") none none none sX (by decide)).2.1 rfl).1,
    (claim5_frame.2 t0 [t0] "Completed" sC (by decide)).1⟩

/-- Claim C6: contrary to the spec, the add-task flow does not zero-pad the
stored due date.  The month, day and year prompts accept the unpadded
entries 3, 5 and 2026, the flow stores the interpolation 2026-3-5, which is
not of the zero-padded YYYY-MM-DD shape the spec asserts; consequently the
lexical due_date sort is not date order: the stored October date sorts
before the stored February date (lexical order on the characters). -/
theorem claim6_unpadded :
    monthAccepted "3" = true ∧ dayAccepted "3" "5" = true ∧ yearAccepted "2026" = true ∧
      formatDueDate "2026" "3" "5" = "2026-3-5" ∧
      isZeroPaddedYMD "2026-3-5" = false ∧
      isZeroPaddedYMD "2026-03-05" = true ∧
      monthAccepted "10" = true ∧ monthAccepted "2" = true ∧
      (formatDueDate "2026" "10" "7").data < (formatDueDate "2026" "2" "7").data := by
  decide

/-- Claim C7: non-atomicity of update_details.  With a valid title and an
invalid priority supplied in the same call, the call reports failure, but
the title write has already been applied: the in-memory task carries the
new title, the title UPDATE has been executed against the rows, and the log
shows that statement with no COMMIT and no rollback. -/
theorem claim7_partial (t : Task) (db : List Task) (x p : String)
    (hx : nonBlank x = true) (hp : p ∉ validPriorities) :
    Task.update_details t db (some x) none none (some p) =
      (false, ⟨{ t with title := x },
        db.map (fun r => if r.id = t.id then { r with title := x } else r),
        [Stmt.updateTitle x t.id]⟩) := by
  simp [Task.update_details, updOne, setTitle, setPriority, hx, hp, applyStmt]

/-- Witness for C7: updating the fixture task with title Y and priority
Urgent fails while keeping the already-issued title write. -/
theorem claim7_witness :
    Task.update_details t0 [t0] (some "Y") none none (some "Urgent") =
      (false, ⟨{ t0 with title := "Y" }, [{ t0 with title := "Y" }],
        [Stmt.updateTitle "Y" "aaaa-bbbb"]⟩) :=
  claim7_partial t0 [t0] "Y" "Urgent" (by decide) (by decide)

/-- Claim C8: immutability of id and created_at.  Neither update operation
changes the id or created_at of the in-memory task or of any stored row,
whatever its arguments or outcome; save appends the new row and leaves the
others untouched; delete only removes rows, never modifies one; and the
lookups only return rows that are in the store. -/
theorem claim8_immutable :
    (∀ t db a b c d,
      (Task.update_details t db a b c d).2.task.id = t.id ∧
        (Task.update_details t db a b c d).2.task.created_at = t.created_at ∧
        (Task.update_details t db a b c d).2.db.map Task.id = db.map Task.id ∧
        (Task.update_details t db a b c d).2.db.map Task.created_at =
          db.map Task.created_at) ∧
      (∀ t db v,
        (Task.update_status t db v).2.task.id = t.id ∧
          (Task.update_status t db v).2.task.created_at = t.created_at ∧
          (Task.update_status t db v).2.db.map Task.id = db.map Task.id ∧
          (Task.update_status t db v).2.db.map Task.created_at = db.map Task.created_at) ∧
      (∀ t db, (Task.save t db).2.1 = db ++ [t]) ∧
      (∀ t db r, r ∈ (Task.delete t db).2.1 → r ∈ db) ∧
      (∀ st p r, Task.get st p = some r → ∃ rows, st = .ok rows ∧ r ∈ rows) ∧
      (∀ st k r, r ∈ Task.get_all st k → ∃ rows, st = .ok rows ∧ r ∈ rows) := by
  refine ⟨?_, ?_, fun t db => rfl, ?_, ?_, ?_⟩
  · intro t db a b c d
    have hid := update_details_proj Task.id t db a b c d
      (stepKeeps_title Task.id (fun r v => rfl) a)
      (stepKeeps_desc Task.id (fun r v => rfl) b)
      (stepKeeps_dd Task.id (fun r v => rfl) c)
      (stepKeeps_pri Task.id (fun r v => rfl) d)
    have hca := update_details_proj Task.created_at t db a b c d
      (stepKeeps_title Task.created_at (fun r v => rfl) a)
      (stepKeeps_desc Task.created_at (fun r v => rfl) b)
      (stepKeeps_dd Task.created_at (fun r v => rfl) c)
      (stepKeeps_pri Task.created_at (fun r v => rfl) d)
    exact ⟨hid.1, hca.1, hid.2, hca.2⟩
  · intro t db v
    unfold Task.update_status
    cases hs : setStatus t v with
    | error e => exact ⟨rfl, rfl, rfl, rfl⟩
    | ok t1 =>
      obtain ⟨hv, ht1⟩ := setStatus_ok hs
      subst ht1
      exact ⟨rfl, rfl, statusCol_keeps Task.id (fun r v2 => rfl) db v t.id,
        statusCol_keeps Task.created_at (fun r v2 => rfl) db v t.id⟩
  · intro t db r hr
    have hr2 : r ∈ db.filter (fun r2 => r2.id != t.id) := hr
    exact (List.mem_filter.mp hr2).1
  · intro st p r h
    cases st with
    | error e => simp [Task.get] at h
    | ok rows =>
      refine ⟨rows, rfl, ?_⟩
      unfold Task.get at h
      dsimp only at h
      cases hf : rows.find? (fun r2 => likeMatch p r2.id) with
      | none => rw [hf] at h; simp at h
      | some r2 =>
        rw [hf] at h
        dsimp only at h
        have hmem := List.mem_of_find?_eq_some hf
        injection h with h2
        rw [← h2]
        exact hmem
  · intro st k r h
    cases st with
    | error e => simp [Task.get_all] at h
    | ok rows =>
      refine ⟨rows, rfl, ?_⟩
      unfold Task.get_all at h
      dsimp only at h
      split at h
      · exact (List.mem_insertionSort _).mp h
      · split at h
        · exact (List.mem_insertionSort _).mp h
        · split at h
          · exact (List.mem_insertionSort _).mp h
          · exact h

/-- Witness for C8: the lookup clause instantiated on the fixture store: a
prefix fetch that returns the fixture task only returns a stored row. -/
theorem claim8_witness :
    ∃ rows, (Except.ok [t0] : Except String (List Task)) = .ok rows ∧ t0 ∈ rows :=
  claim8_immutable.2.2.2.2.1 (.ok [t0]) "aaaa" t0 (by decide)

/-- Claim C9: after delete succeeds, a lookup by any fragment that matched
only the deleted task (its full id included) returns the absence signal;
the row is physically gone from the stored rows. -/
theorem claim9_delete (t : Task) (db : List Task) (p : String)
    (honly : ∀ r ∈ db, likeMatch p r.id = true → r.id = t.id) :
    (Task.delete t db).1 = true ∧ Task.get (.ok (Task.delete t db).2.1) p = none := by
  refine ⟨rfl, ?_⟩
  have hnone : ((Task.delete t db).2.1).find? (fun r => likeMatch p r.id) = none := by
    rw [List.find?_eq_none]
    intro r hr
    have hr2 : r ∈ db.filter (fun r2 => r2.id != t.id) := hr
    have hmem := List.mem_filter.mp hr2
    intro hpr
    have heq : r.id = t.id := honly r hmem.1 hpr
    have hne : r.id ≠ t.id := by simpa [bne_iff_ne] using hmem.2
    exact hne heq
  simp [Task.get, hnone]

/-- Witness for C9: deleting the fixture task from a one-row store makes
the lookup by its full id return the absence signal. -/
theorem claim9_witness :
    (Task.delete t0 [t0]).1 = true ∧ Task.get (.ok (Task.delete t0 [t0]).2.1) t0.id = none :=
  claim9_delete t0 [t0] t0.id (by decide)

/-- Claim C10: the lookups collapse store errors into their absent results:
on a store error Task.get returns None and Task.get_all returns the empty
list, exactly what they return on an empty store, so the caller cannot tell
a failed query from an absent result. -/
theorem claim10_collapse :
    (∀ e p, Task.get (.error e) p = none) ∧
      (∀ e p, Task.get (.error e) p = Task.get (.ok []) p) ∧
      (∀ e k, Task.get_all (.error e) k = []) ∧
      (∀ e k, Task.get_all (.error e) k = Task.get_all (.ok []) k) := by
  refine ⟨fun e p => rfl, fun e p => rfl, fun e k => rfl, fun e k => ?_⟩
  unfold Task.get_all
  dsimp only
  split
  · rfl
  · split
    · rfl
    · split
      · rfl
      · rfl

end TaskMM
